import Mathlib

/-!
Verification of the monday-for-agents gateway against its specification.

The development shallowly embeds the gateway components the specification
talks about: the A2A JSON-RPC client, the intent router, the thread-session
store, the Google OAuth broker and token store, the meeting store, and the
scheduled-job runtime.  External effects (HTTP transport, the LLM reply,
token exchange, token refresh) are modelled as explicit input values; all
definitions are executable and translated from the TypeScript source.
-/

namespace MondayForAgents

/-! ## A2A client (services/a2a-client.ts) -/

/-- One part of an A2A message; the source keeps both the old `type` and the
new `kind` discriminator as optional fields. -/
structure A2APart where
  type : Option String
  kind : Option String
  text : String
deriving DecidableEq, Repr

/-- An A2A message: a role plus text parts. -/
structure A2AMessage where
  role : String
  parts : List A2APart
deriving DecidableEq, Repr

/-- Status of an A2A task. -/
structure A2ATaskStatus where
  state : String
  message : Option A2AMessage
deriving DecidableEq, Repr

/-- An A2A task envelope as produced by downstream agents. -/
structure A2ATask where
  id : String
  contextId : String
  status : A2ATaskStatus
  history : Option (List A2AMessage)
deriving DecidableEq, Repr

/-- A JSON-RPC error object. -/
structure RpcError where
  code : Int
  message : String
deriving DecidableEq, Repr

/-- A JSON-RPC response as the client hands it to callers. -/
structure A2AResponse where
  jsonrpc : String
  id : String
  result : Option A2ATask
  error : Option RpcError
deriving DecidableEq, Repr

/-- Behaviour of the HTTP transport for one request: either the server
answered with a parseable JSON-RPC response body, or the axios call threw
(timeout, connection refusal, non-2xx status), carrying an error message. -/
inductive Transport where
  | ok (resp : A2AResponse)
  | fail (msg : String)
deriving DecidableEq, Repr

/-- The `rpc` helper inside `createA2AClient`: on a transport failure the
catch block builds a synthetic response with error code -32000; a response
body from the server is returned unchanged (the code only logs its error
field).  The function is total: it never throws to its caller. -/
def rpc (reqId : String) (transport : Transport) : A2AResponse :=
  match transport with
  | .ok resp => resp
  | .fail msg =>
      { jsonrpc := "2.0", id := reqId, result := none,
        error := some { code := -32000, message := "HTTP error: " ++ msg } }

/-- The params object emitted for a `message/send` request.  The
`configuration` field is `some c` exactly when the emitted JSON carries
`configuration = \x7bcontext_id: c\x7d`; `none` means the key is absent. -/
structure SendMessageParams where
  text : String
  messageId : String
  configuration : Option String
deriving DecidableEq, Repr

/-- Request construction in `sendMessage`: the JS guard `if (contextId)`
adds the `configuration` key only when `contextId` is defined and truthy,
so an empty string behaves like an absent argument. -/
def sendMessageParams (message : String) (contextId : Option String)
    (messageId : String) : SendMessageParams :=
  { text := message, messageId := messageId,
    configuration :=
      match contextId with
      | some c => if c = "" then none else some c
      | none => none }

/-- The `sendMessage` client operation: emits a `message/send` request and
returns the rpc outcome.  The first component is the emitted params, the
second the response handed to the caller. -/
def sendMessage (message : String) (contextId : Option String)
    (messageId reqId : String) (transport : Transport) :
    SendMessageParams × A2AResponse :=
  (sendMessageParams message contextId messageId, rpc reqId transport)

/-- The `getTask` client operation: emits a `task/get` request carrying the
task id and returns the rpc outcome. -/
def getTask (taskId reqId : String) (transport : Transport) :
    String × A2AResponse :=
  (taskId, rpc reqId transport)

/-! ## Intent router (services/intent-router.ts) -/

/-- Lowercasing as used by `text.toLowerCase()`; the keyword tables are
ASCII, where JS lowercasing agrees with `Char.toLower`. -/
def toLowerCase (s : String) : String := ⟨s.data.map Char.toLower⟩

/-- Substring test on character lists, embedding `String.prototype.includes`. -/
def charListContains (pat : List Char) : List Char → Bool
  | [] => pat.isEmpty
  | c :: rest => pat.isPrefixOf (c :: rest) || charListContains pat rest

/-- `s.includes(pat)` on strings. -/
def containsSubstr (s pat : String) : Bool := charListContains pat.data s.data

/-- The closed intent set `INTENT_TYPES`. -/
def INTENT_TYPES : List String :=
  ["create-task", "board-status", "meeting-sync", "calendar", "drive", "agent-chat"]

/-- Result of a classification: an intent plus the agent key to route to. -/
structure ClassificationResult where
  intent : String
  agentKey : String
deriving DecidableEq, Repr

/-- One Tier-1 keyword rule. -/
structure KeywordRule where
  keywords : List String
  intent : String
  agentKey : String
deriving DecidableEq, Repr

/-- The ordered Tier-1 rule table `KEYWORD_RULES`. -/
def KEYWORD_RULES : List KeywordRule :=
  [ { keywords := ["create a task", "create task", "make a task", "add a task", "new task"],
      intent := "create-task", agentKey := "product-owner" },
    { keywords := ["board status", "sprint status", "standup", "stand-up"],
      intent := "board-status", agentKey := "scrum-master" },
    { keywords := ["sync meeting", "sync my meeting", "meeting sync", "sync meetings"],
      intent := "meeting-sync", agentKey := "product-owner" },
    { keywords := ["calendar", "schedule", "what\x27s on my", "my agenda", "my meetings today", "book a meeting"],
      intent := "calendar", agentKey := "product-owner" },
    { keywords := ["find the file", "find a file", "search drive", "google drive", "my drive", "find the doc", "find document"],
      intent := "drive", agentKey := "product-owner" } ]

/-- Tier-1 pre-filter: lowercase the text, then return the result of the
first rule (in table order) one of whose keywords occurs as a substring. -/
def keywordPreFilter (text : String) : Option ClassificationResult :=
  let lower := toLowerCase text
  KEYWORD_RULES.findSome? fun rule =>
    if rule.keywords.any (fun kw => containsSubstr lower kw) then
      some { intent := rule.intent, agentKey := rule.agentKey }
    else none

/-- Tier-3 fallback keyword sets. -/
def SCRUM_MASTER_KEYWORDS : List String :=
  ["status", "standup", "blocked", "summary", "report", "sprint", "board"]

/-- Fallback keywords for create-task. -/
def CREATE_TASK_KEYWORDS : List String := ["create", "task", "add item"]

/-- Fallback keywords for calendar. -/
def CALENDAR_KEYWORDS : List String :=
  ["calendar", "schedule", "meeting", "agenda", "appointment", "book"]

/-- Fallback keywords for drive. -/
def DRIVE_KEYWORDS : List String :=
  ["drive", "file", "document", "doc", "sheet", "folder"]

/-- Fallback keywords for meeting-sync. -/
def MEETING_SYNC_KEYWORDS : List String := ["sync", "transcript", "meeting notes"]

/-- Tier-3 keyword fallback classifier `classifyFallback`. -/
def classifyFallback (text : String) : ClassificationResult :=
  let lower := toLowerCase text
  if CREATE_TASK_KEYWORDS.any (fun kw => containsSubstr lower kw) && containsSubstr lower "task" then
    { intent := "create-task", agentKey := "product-owner" }
  else if MEETING_SYNC_KEYWORDS.any (fun kw => containsSubstr lower kw) then
    { intent := "meeting-sync", agentKey := "product-owner" }
  else if CALENDAR_KEYWORDS.any (fun kw => containsSubstr lower kw) then
    { intent := "calendar", agentKey := "product-owner" }
  else if DRIVE_KEYWORDS.any (fun kw => containsSubstr lower kw) then
    { intent := "drive", agentKey := "product-owner" }
  else if SCRUM_MASTER_KEYWORDS.any (fun kw => containsSubstr lower kw) then
    { intent := "board-status", agentKey := "scrum-master" }
  else
    { intent := "agent-chat", agentKey := "product-owner" }

/-- Outcome of the Tier-2 LLM call as observed by `classify` after the
external steps (HTTP call, code-fence stripping, `JSON.parse`):
the call threw; the reply had no text block; the text was not parseable
JSON (`JSON.parse` threw, caught by the same handler); or it parsed into an
object whose `intent` and `agentKey` fields are optional strings (an absent
or non-string field behaves like `none` for the checks the code performs). -/
inductive LLMReply where
  | llmThrown (msg : String)
  | noTextBlock
  | unparseable (raw : String)
  | parsed (intent : Option String) (agentKey : Option String)
deriving DecidableEq, Repr

/-- The two-tier `IntentRouter.classify`, with the LLM behaviour passed in
explicitly.  Tier 1 returns without consulting the LLM; every Tier-2
failure path returns `classifyFallback`; a parsed reply is range-checked on
`intent` only, and a falsy `agentKey` defaults to product-owner. -/
def classify (message : String) (reply : LLMReply) : ClassificationResult :=
  match keywordPreFilter message with
  | some keywordResult => keywordResult
  | none =>
    match reply with
    | .llmThrown _ => classifyFallback message
    | .noTextBlock => classifyFallback message
    | .unparseable _ => classifyFallback message
    | .parsed parsedIntent parsedAgentKey =>
        { intent :=
            match parsedIntent with
            | some i => if INTENT_TYPES.contains i then i else "agent-chat"
            | none => "agent-chat",
          agentKey :=
            match parsedAgentKey with
            | some a => if a = "" then "product-owner" else a
            | none => "product-owner" }

/-! ## Google token store (services/google-token-store.ts)

The sqlite table `google_tokens` keyed by `slack_user_id` is modelled as an
association list; `upsert` replaces every field on conflict. -/

/-- A row of the `google_tokens` table. -/
structure GoogleTokenRecord where
  slack_user_id : String
  access_token : String
  refresh_token : String
  expiry_date : Int
  scope : String
deriving DecidableEq, Repr

/-- The token store contents, keyed by `slack_user_id`. -/
abbrev TokenStore := List (String × GoogleTokenRecord)

/-- `GoogleTokenStore.upsert`: insert, or replace all fields on key conflict. -/
def upsertToken : TokenStore → GoogleTokenRecord → TokenStore
  | [], record => [(record.slack_user_id, record)]
  | (key, old) :: rest, record =>
      if key = record.slack_user_id then (key, record) :: rest
      else (key, old) :: upsertToken rest record

/-! ## Google OAuth broker (services/google-auth.ts) -/

/-- Splitting a character list on a separator character, embedding
`String.prototype.split`. -/
def splitOnChar (sep : Char) : List Char → List (List Char)
  | [] => [[]]
  | c :: rest =>
      let tailParts := splitOnChar sep rest
      if c == sep then [] :: tailParts
      else
        match tailParts with
        | [] => [[c]]
        | part :: parts => (c :: part) :: parts

/-- `state.split(":")` as used by `verifyState`. -/
def stringSplitColon (s : String) : List String :=
  (splitOnChar ':' s.data).map fun part => ⟨part⟩

/-- The scopes constant, joined as in `SCOPES.join(" ")`. -/
def SCOPES_JOINED : String :=
  "https://www.googleapis.com/auth/calendar https://www.googleapis.com/auth/drive"

/-- `GoogleAuthService.verifyState`: split the state on `:`, require exactly
two parts, recompute the hex HMAC of the subject under the signing secret
(the HMAC itself is an external crypto primitive, passed as a function),
and compare with the signature part. -/
def verifyState (signingSecret : String) (hmacHex : String → String → String)
    (state : String) : Option String :=
  match stringSplitColon state with
  | [userId, signature] =>
      if signature = hmacHex signingSecret userId then some userId else none
  | _ => none

/-- `signState`: the state sent out is `subject:hmac`. -/
def signState (signingSecret : String) (hmacHex : String → String → String)
    (slackUserId : String) : String :=
  slackUserId ++ ":" ++ hmacHex signingSecret slackUserId

/-- The token payload returned by the code-for-token exchange; each field
may be absent. -/
structure OAuthTokens where
  access_token : Option String
  refresh_token : Option String
  expiry_date : Option Int
  scope : Option String
deriving DecidableEq, Repr

/-- JS truthiness of an optional string: defined and non-empty. -/
def truthyStr : Option String → Bool
  | some s => !(s == "")
  | none => false

/-- `GoogleAuthService.handleCallback`: verify the state; exchange the code
(the exchange outcome is passed in, `Except.error` modelling a thrown
`getToken`); require truthy access and refresh tokens; upsert the record.
The returned pair is the token store after the call and the outcome
(`Except.ok subject` on success, `Except.error message` when the code
throws). -/
def handleCallback (signingSecret : String) (hmacHex : String → String → String)
    (getTokenResult : Except String OAuthTokens) (store : TokenStore)
    (state : String) : TokenStore × Except String String :=
  match verifyState signingSecret hmacHex state with
  | none => (store, .error "Invalid or tampered OAuth state")
  | some slackUserId =>
    match getTokenResult with
    | .error e => (store, .error e)
    | .ok tokens =>
      if truthyStr tokens.access_token && truthyStr tokens.refresh_token then
        let record : GoogleTokenRecord :=
          { slack_user_id := slackUserId,
            access_token := tokens.access_token.getD "",
            refresh_token := tokens.refresh_token.getD "",
            expiry_date := tokens.expiry_date.getD 0,
            scope := tokens.scope.getD SCOPES_JOINED }
        (upsertToken store record, .ok slackUserId)
      else (store, .error "Missing tokens in OAuth response")

/-- The credential payload returned by `refreshAccessToken`. -/
structure RefreshCredentials where
  access_token : Option String
  expiry_date : Option Int
deriving DecidableEq, Repr

/-- Observable outcome of `GoogleAuthService.getClient`: the call result
(the pre-authenticated client object itself is external), how many times
the refresh endpoint was called, and the token store afterwards. -/
structure GetClientOutcome where
  result : Except String Unit
  refreshCalls : Nat
  store : TokenStore
deriving Repr

/-- `GoogleAuthService.getClient`: fail when no record exists; refresh and
upsert when the stored expiry is truthy (non-zero) and in the past
(`if (record.expiry_date && record.expiry_date < Date.now())`); otherwise
use the stored credentials as they are. -/
def getClient (store : TokenStore) (slackUserId : String) (now : Int)
    (refreshResult : RefreshCredentials) : GetClientOutcome :=
  match store.lookup slackUserId with
  | none =>
      { result := .error "No Google tokens found. Please connect with /google connect",
        refreshCalls := 0, store := store }
  | some record =>
      if record.expiry_date ≠ 0 ∧ record.expiry_date < now then
        let newRecord : GoogleTokenRecord :=
          { record with
            access_token := refreshResult.access_token.getD record.access_token,
            expiry_date := refreshResult.expiry_date.getD record.expiry_date }
        { result := .ok (), refreshCalls := 1, store := upsertToken store newRecord }
      else
        { result := .ok (), refreshCalls := 0, store := store }

/-! ## Meeting store (services/meeting-store.ts)

The sqlite table `processed_meetings` keyed by `event_id` is modelled as an
association list. -/

/-- A row of the `processed_meetings` table (minus the key). -/
structure MeetingRecord where
  title : String
  processed_at : String
  status : String
  task_ids : Option String
deriving DecidableEq, Repr

/-- The meeting store contents, keyed by `event_id`. -/
abbrev MeetingStoreState := List (String × MeetingRecord)

/-- `MeetingStore.isProcessed`: `SELECT 1 ... WHERE event_id = ?` returned a
row. -/
def isProcessed (s : MeetingStoreState) (eventId : String) : Bool :=
  (s.lookup eventId).isSome

/-- `MeetingStore.markPending`: insert a pending row, or on key conflict
update title, processed_at and status (task_ids untouched). -/
def markPending : MeetingStoreState → String → String → String → MeetingStoreState
  | [], eventId, title, processedAt =>
      [(eventId, { title := title, processed_at := processedAt,
                   status := "pending", task_ids := none })]
  | (key, r) :: rest, eventId, title, processedAt =>
      if key = eventId then
        (key, { r with title := title, processed_at := processedAt,
                       status := "pending" }) :: rest
      else (key, r) :: markPending rest eventId title processedAt

/-- `MeetingStore.markDismissed`: insert a dismissed row (title defaulting
to the empty string), or on key conflict update only the status. -/
def markDismissed : MeetingStoreState → String → Option String → String → MeetingStoreState
  | [], eventId, title, processedAt =>
      [(eventId, { title := title.getD "", processed_at := processedAt,
                   status := "dismissed", task_ids := none })]
  | (key, r) :: rest, eventId, title, processedAt =>
      if key = eventId then (key, { r with status := "dismissed" }) :: rest
      else (key, r) :: markDismissed rest eventId title processedAt

/-- `MeetingStore.markApproved`: a plain UPDATE — no insertion when the key
is absent. -/
def markApproved : MeetingStoreState → String → List String → MeetingStoreState
  | [], _, _ => []
  | (key, r) :: rest, eventId, taskIds =>
      if key = eventId then
        (key, { r with status := "approved",
                       task_ids := some (String.intercalate "," taskIds) }) :: rest
      else (key, r) :: markApproved rest eventId taskIds

/-! ## Scheduled-job runtime (services/scheduler.ts) -/

/-- The value `execute` resolves with. -/
structure ScheduledJobResult where
  success : Bool
  posted : Bool
  error : Option String
deriving DecidableEq, Repr

/-- Per-job runtime state tracked by the scheduler. -/
structure JobState where
  running : Bool
  lastRun : Option Nat
  lastResult : Option ScheduledJobResult
  consecutiveFailures : Nat
deriving DecidableEq, Repr

/-- Behaviour of one `execute(ctx)` call: it resolved with a result, or it
threw with a message. -/
inductive ExecOutcome where
  | ok (result : ScheduledJobResult)
  | thrown (msg : String)
deriving DecidableEq, Repr

/-- One tick of the cron callback in `startAll`.  The overlap guard skips
when `running`; otherwise `execute` runs under try/catch/finally: a thrown
error is converted to a failed result and counted, a failed result is
counted, a success resets the counter.  The `Except` codomain records
whether the callback itself propagates an exception — the catch block makes
every outcome land in `Except.ok`. -/
def runTick (st : JobState) (now : Nat) (outcome : ExecOutcome) :
    Except String JobState :=
  if st.running then .ok st
  else
    match outcome with
    | .ok result =>
        if result.success then
          .ok { running := false, lastRun := some now, lastResult := some result,
                consecutiveFailures := 0 }
        else
          .ok { running := false, lastRun := some now, lastResult := some result,
                consecutiveFailures := st.consecutiveFailures + 1 }
    | .thrown msg =>
        .ok { running := false, lastRun := some now,
              lastResult := some { success := false, posted := false, error := some msg },
              consecutiveFailures := st.consecutiveFailures + 1 }

/-! ## Thread-session store (handlers/mention.ts, handlers/intent-handlers.ts) -/

/-- A `threadMap` entry. -/
structure ThreadMapping where
  contextId : String
  agentKey : String
  intent : Option String
deriving DecidableEq, Repr

/-- The in-memory `threadMap`, keyed by `thread_ts`. -/
abbrev ThreadMap := List (String × ThreadMapping)

/-- `threadMap.set`: insert or replace the entry for a key. -/
def setThread : ThreadMap → String → ThreadMapping → ThreadMap
  | [], threadTs, mapping => [(threadTs, mapping)]
  | (key, old) :: rest, threadTs, mapping =>
      if key = threadTs then (key, mapping) :: rest
      else (key, old) :: setThread rest threadTs mapping

/-- The `threadMap` update in `registerMentionHandler`: a new thread gets a
fresh context id; an already-mapped thread keeps its context id while both
`intent` and `agentKey` are overwritten with the newly classified values. -/
def mentionThreadUpdate (m : ThreadMap) (threadTs freshContextId intent agentKey : String) :
    ThreadMap :=
  match m.lookup threadTs with
  | none =>
      setThread m threadTs
        { contextId := freshContextId, agentKey := agentKey, intent := some intent }
  | some mapping =>
      setThread m threadTs
        { contextId := mapping.contextId, agentKey := agentKey, intent := some intent }

/-- The `threadMap` update in `handleAgentChat`: create a mapping only when
the thread has none; an existing mapping is reused untouched. -/
def agentChatEnsure (m : ThreadMap) (threadTs freshContextId agentKey : String) :
    ThreadMap :=
  match m.lookup threadTs with
  | none =>
      setThread m threadTs
        { contextId := freshContextId, agentKey := agentKey, intent := some "agent-chat" }
  | some _ => m

/-- The events that touch the thread map during the process lifetime. -/
inductive SessionEvent where
  | mention (threadTs freshContextId intent agentKey : String)
  | agentChat (threadTs freshContextId agentKey : String)
deriving DecidableEq, Repr

/-- One thread-map transition. -/
def sessionStep (m : ThreadMap) : SessionEvent → ThreadMap
  | .mention threadTs freshContextId intent agentKey =>
      mentionThreadUpdate m threadTs freshContextId intent agentKey
  | .agentChat threadTs freshContextId agentKey =>
      agentChatEnsure m threadTs freshContextId agentKey

/-- The thread map after a sequence of events. -/
def sessionRun (m : ThreadMap) (events : List SessionEvent) : ThreadMap :=
  events.foldl sessionStep m

/-! ## Helper lemmas -/

/-- Lookup in a string-keyed association list succeeds exactly when some
pair with that key is a member. -/
theorem lookup_isSome_iff {β : Type} :
    ∀ (s : List (String × β)) (k : String),
      (s.lookup k).isSome = true ↔ ∃ v, (k, v) ∈ s := by
  intro s k
  induction s with
  | nil => simp
  | cons p rest ih =>
    obtain ⟨k2, v2⟩ := p
    by_cases hk : k = k2
    · subst hk
      simp [List.lookup_cons]
    · have hbeq : (k == k2) = false := by simp [hk]
      simp only [List.lookup_cons, hbeq]
      rw [ih]
      constructor
      · rintro ⟨v, hv⟩; exact ⟨v, List.mem_cons_of_mem _ hv⟩
      · rintro ⟨v, hv⟩
        rcases List.mem_cons.mp hv with heq | hmem
        · exact absurd (congrArg Prod.fst heq) hk
        · exact ⟨v, hmem⟩

/-- Looking up the key just set returns the new mapping. -/
theorem lookup_setThread_self :
    ∀ (m : ThreadMap) (t : String) (v : ThreadMapping),
      (setThread m t v).lookup t = some v := by
  intro m t v
  induction m with
  | nil => simp [setThread, List.lookup_cons]
  | cons p rest ih =>
    obtain ⟨k, old⟩ := p
    by_cases hk : k = t
    · subst hk; simp [setThread, List.lookup_cons]
    · have hbeq : (t == k) = false := by simp [Ne.symm hk]
      simp [setThread, hk, List.lookup_cons, hbeq, ih]

/-- Setting one key leaves lookups of other keys unchanged. -/
theorem lookup_setThread_ne :
    ∀ (m : ThreadMap) (t t2 : String) (v : ThreadMapping), t ≠ t2 →
      (setThread m t2 v).lookup t = m.lookup t := by
  intro m t t2 v hne
  induction m with
  | nil =>
    have hbeq : (t == t2) = false := by simp [hne]
    simp [setThread, List.lookup_cons, hbeq]
  | cons p rest ih =>
    obtain ⟨k, old⟩ := p
    by_cases hk : k = t2
    · subst hk
      have hbeq : (t == k) = false := by simp [hne]
      simp [setThread, List.lookup_cons, hbeq]
    · simp only [setThread, hk, if_false]
      by_cases htk : t = k
      · subst htk; simp [List.lookup_cons]
      · have hbeq : (t == k) = false := by simp [htk]
        simp [List.lookup_cons, hbeq, ih]

/-- A pending row is present after `markPending`. -/
theorem isProcessed_markPending :
    ∀ (s : MeetingStoreState) (eventId title processedAt : String),
      isProcessed (markPending s eventId title processedAt) eventId = true := by
  intro s eventId title processedAt
  induction s with
  | nil => simp [markPending, isProcessed, List.lookup_cons]
  | cons p rest ih =>
    obtain ⟨k, r⟩ := p
    by_cases hk : k = eventId
    · subst hk; simp [markPending, isProcessed, List.lookup_cons]
    · have hbeq : (eventId == k) = false := by simp [Ne.symm hk]
      simpa [markPending, hk, isProcessed, List.lookup_cons, hbeq] using ih

/-- A dismissed row is present after `markDismissed`. -/
theorem isProcessed_markDismissed :
    ∀ (s : MeetingStoreState) (eventId : String) (title : Option String)
      (processedAt : String),
      isProcessed (markDismissed s eventId title processedAt) eventId = true := by
  intro s eventId title processedAt
  induction s with
  | nil => simp [markDismissed, isProcessed, List.lookup_cons]
  | cons p rest ih =>
    obtain ⟨k, r⟩ := p
    by_cases hk : k = eventId
    · subst hk; simp [markDismissed, isProcessed, List.lookup_cons]
    · have hbeq : (eventId == k) = false := by simp [Ne.symm hk]
      simpa [markDismissed, hk, isProcessed, List.lookup_cons, hbeq] using ih

/-! ## Claims -/

/-- C1: for every call to sendMessage or getTask and every transport
behaviour, the client returns a response value (the functions are total and
never throw): on a transport-level failure the response carries error code
-32000 with a human-readable message, and a response the server itself
produced — including one carrying a JSON-RPC error object — is returned
unchanged. -/
theorem a2a_failure_safety (message : String) (contextId : Option String)
    (messageId reqId taskId failMsg : String) (resp : A2AResponse) :
    (sendMessage message contextId messageId reqId (.fail failMsg)).2 =
      { jsonrpc := "2.0", id := reqId, result := none,
        error := some { code := -32000, message := "HTTP error: " ++ failMsg } }
    ∧ (sendMessage message contextId messageId reqId (.ok resp)).2 = resp
    ∧ (getTask taskId reqId (.fail failMsg)).2 =
      { jsonrpc := "2.0", id := reqId, result := none,
        error := some { code := -32000, message := "HTTP error: " ++ failMsg } }
    ∧ (getTask taskId reqId (.ok resp)).2 = resp :=
  ⟨rfl, rfl, rfl, rfl⟩

/-- C2 counterexample: the claim states that whenever a contextId is
supplied the emitted params carry it in the configuration key; supplying
the empty string is a call with a contextId supplied, yet the JS truthiness
guard `if (contextId)` omits the configuration key entirely. -/
theorem a2a_context_counterexample :
    (sendMessageParams "hi" (some "") "m1").configuration = none := rfl

/-- C2 amended: for every call with a non-empty contextId the emitted
request has configuration.context_id equal to it — so two successive calls
with the same non-empty ctx emit two requests with the same
configuration.context_id — and a call without contextId omits the
configuration key. -/
theorem a2a_context_propagation (message message2 ctx messageId messageId2 : String)
    (h : ctx ≠ "") :
    (sendMessageParams message (some ctx) messageId).configuration = some ctx
    ∧ (sendMessageParams message2 (some ctx) messageId2).configuration = some ctx
    ∧ ∀ msg mid, (sendMessageParams msg none mid).configuration = none := by
  refine ⟨?_, ?_, fun _ _ => rfl⟩ <;> simp [sendMessageParams, h]

/-- C2 witness: two concrete successive calls with ctx-1 both carry it; a
call without contextId carries nothing. -/
theorem a2a_context_propagation_witness :
    (sendMessageParams "first" (some "ctx-1") "m1").configuration = some "ctx-1"
    ∧ (sendMessageParams "second" (some "ctx-1") "m2").configuration = some "ctx-1"
    ∧ (sendMessageParams "third" none "m3").configuration = none :=
  ⟨(a2a_context_propagation "first" "second" "ctx-1" "m1" "m2" (by decide)).1,
   (a2a_context_propagation "first" "second" "ctx-1" "m1" "m2" (by decide)).2.1,
   (a2a_context_propagation "first" "second" "ctx-1" "m1" "m2" (by decide)).2.2 "third" "m3"⟩

/-- C4: isProcessed is true exactly when some record for the event-id is in
the store — whatever its status field holds — so it is true after
markPending and after markDismissed, and false for an event-id never
inserted. -/
theorem meeting_isProcessed_closure (s : MeetingStoreState)
    (eventId title processedAt : String) (titleOpt : Option String) :
    (isProcessed s eventId = true ↔ ∃ r, (eventId, r) ∈ s)
    ∧ isProcessed (markPending s eventId title processedAt) eventId = true
    ∧ isProcessed (markDismissed s eventId titleOpt processedAt) eventId = true :=
  ⟨lookup_isSome_iff s eventId,
   isProcessed_markPending s eventId title processedAt,
   isProcessed_markDismissed s eventId titleOpt processedAt⟩

/-- C4 witness: marking a fresh event pending makes it processed; an
event-id never inserted is not processed. -/
theorem meeting_isProcessed_closure_witness :
    isProcessed (markPending [] "evt-1" "Standup" "2026-01-01T00:00:00Z") "evt-1" = true
    ∧ isProcessed (markDismissed [] "evt-3" none "2026-01-01T00:00:00Z") "evt-3" = true
    ∧ isProcessed ([] : MeetingStoreState) "evt-2" = false :=
  ⟨(meeting_isProcessed_closure [] "evt-1" "Standup" "2026-01-01T00:00:00Z" none).2.1,
   (meeting_isProcessed_closure [] "evt-3" "" "2026-01-01T00:00:00Z" none).2.2,
   rfl⟩

/-- C9: on a tick of an enabled job that is not already running, a thrown
execute is caught and recorded as a failed result carrying the error
message while consecutiveFailures increments; a returned failure
increments the counter; a success resets it to zero; and for every outcome
the tick callback itself finishes normally (never propagates an
exception). -/
theorem scheduler_failure_handling (st : JobState) (now : Nat) (failMsg : String)
    (result : ScheduledJobResult) (hrun : st.running = false) :
    runTick st now (.thrown failMsg) =
      .ok { running := false, lastRun := some now,
            lastResult := some { success := false, posted := false, error := some failMsg },
            consecutiveFailures := st.consecutiveFailures + 1 }
    ∧ (result.success = false →
        runTick st now (.ok result) =
          .ok { running := false, lastRun := some now, lastResult := some result,
                consecutiveFailures := st.consecutiveFailures + 1 })
    ∧ (result.success = true →
        runTick st now (.ok result) =
          .ok { running := false, lastRun := some now, lastResult := some result,
                consecutiveFailures := 0 })
    ∧ (∀ outcome : ExecOutcome, ∃ st2, runTick st now outcome = .ok st2) := by
  refine ⟨?_, ?_, ?_, ?_⟩
  · simp [runTick, hrun]
  · intro hs; simp [runTick, hrun, hs]
  · intro hs; simp [runTick, hrun, hs]
  · intro outcome
    cases outcome with
    | ok result2 =>
        cases hs : result2.success
        · exact ⟨{ running := false, lastRun := some now, lastResult := some result2,
                   consecutiveFailures := st.consecutiveFailures + 1 },
                 by simp [runTick, hrun, hs]⟩
        · exact ⟨{ running := false, lastRun := some now, lastResult := some result2,
                   consecutiveFailures := 0 },
                 by simp [runTick, hrun, hs]⟩
    | thrown msg =>
        exact ⟨{ running := false, lastRun := some now,
                 lastResult := some { success := false, posted := false, error := some msg },
                 consecutiveFailures := st.consecutiveFailures + 1 },
               by simp [runTick, hrun]⟩

/-- C9 witness: a job with two prior failures that throws on the next tick
reaches three consecutive failures and a failed lastResult, without the
callback raising. -/
theorem scheduler_failure_handling_witness :
    runTick { running := false, lastRun := none, lastResult := none,
              consecutiveFailures := 2 } 5 (.thrown "boom") =
      .ok { running := false, lastRun := some 5,
            lastResult := some { success := false, posted := false, error := some "boom" },
            consecutiveFailures := 3 } :=
  (scheduler_failure_handling
    { running := false, lastRun := none, lastResult := none, consecutiveFailures := 2 }
    5 "boom" { success := true, posted := false, error := none } rfl).1

/-- C7: for every state that does not split on the colon into exactly two
parts, or whose signature part differs from the HMAC of the subject part
under the signing secret, handleCallback fails with the invalid-state
error and the token store is returned unchanged — no upsert happens. -/
theorem oauth_invalid_state (signingSecret : String)
    (hmacHex : String → String → String) (getTokenResult : Except String OAuthTokens)
    (store : TokenStore) (state : String)
    (h : ∀ userId signature, stringSplitColon state = [userId, signature] →
         signature ≠ hmacHex signingSecret userId) :
    handleCallback signingSecret hmacHex getTokenResult store state =
      (store, .error "Invalid or tampered OAuth state") := by
  have hv : verifyState signingSecret hmacHex state = none := by
    unfold verifyState
    split
    · rename_i userId signature heq
      exact if_neg (h userId signature heq)
    · rfl
  unfold handleCallback
  rw [hv]

/-- C7 witness: a tampered state whose signature does not match the HMAC is
rejected and the empty store stays empty. -/
theorem oauth_invalid_state_witness :
    handleCallback "secret" (fun key msg => key ++ "|" ++ msg)
        (.error "exchange-not-reached") [] "U12345:ffff" =
      (([] : TokenStore), .error "Invalid or tampered OAuth state") := by
  apply oauth_invalid_state
  intro userId signature heq
  have hsplit : stringSplitColon "U12345:ffff" = ["U12345", "ffff"] := by decide
  rw [hsplit] at heq
  simp only [List.cons.injEq, and_true] at heq
  obtain ⟨h1, h2⟩ := heq
  subst h1; subst h2
  decide

/-- C8 counterexample: the claim says every stored record with expiry
before now triggers exactly one refresh call; a record whose expiry is 0 is
before now = 1000, yet the truthiness guard
`if (record.expiry_date && ...)` makes getClient perform zero refresh calls
and leave the store untouched. -/
theorem google_refresh_counterexample :
    (getClient
        [("U1", { slack_user_id := "U1", access_token := "at-old",
                  refresh_token := "rt-1", expiry_date := 0, scope := "s" })]
        "U1" 1000
        { access_token := some "at-new", expiry_date := some 2000 }).refreshCalls = 0
    ∧ (0 : Int) < 1000 := by
  constructor
  · rfl
  · decide

/-- C8 amended: for a stored record whose expiry is non-zero and before
now, getClient performs exactly one refresh call and upserts the record
with the refreshed access token and expiry while the refresh token is
preserved unchanged; a record with zero expiry or a future expiry causes no
refresh call and no store change; an unknown subject fails with the
not-connected error. -/
theorem google_token_refresh (store : TokenStore) (subject : String) (now : Int)
    (refreshResult : RefreshCredentials) :
    (∀ record, store.lookup subject = some record →
      (record.expiry_date ≠ 0 → record.expiry_date < now →
        getClient store subject now refreshResult =
          { result := .ok (), refreshCalls := 1,
            store := upsertToken store
              { record with
                access_token := refreshResult.access_token.getD record.access_token,
                expiry_date := refreshResult.expiry_date.getD record.expiry_date } }
        ∧ ({ record with
              access_token := refreshResult.access_token.getD record.access_token,
              expiry_date := refreshResult.expiry_date.getD record.expiry_date
            } : GoogleTokenRecord).refresh_token = record.refresh_token)
      ∧ ((record.expiry_date = 0 ∨ ¬ record.expiry_date < now) →
          getClient store subject now refreshResult =
            { result := .ok (), refreshCalls := 0, store := store }))
    ∧ (store.lookup subject = none →
        getClient store subject now refreshResult =
          { result := .error "No Google tokens found. Please connect with /google connect",
            refreshCalls := 0, store := store }) := by
  constructor
  · intro record hrec
    constructor
    · intro h0 hlt
      refine ⟨?_, rfl⟩
      simp only [getClient, hrec]
      rw [if_pos ⟨h0, hlt⟩]
    · intro hnot
      have hc : ¬(record.expiry_date ≠ 0 ∧ record.expiry_date < now) := by
        rintro ⟨hz, hl⟩
        rcases hnot with h | h
        · exact hz h
        · exact h hl
      simp only [getClient, hrec]
      rw [if_neg hc]
  · intro hnone
    simp only [getClient, hnone]

/-- C8 witness: a record expiring at 500 with now = 1000 is refreshed once
and re-stored with the new access token 'at-new' and expiry 9000, the
refresh token surviving unchanged. -/
theorem google_token_refresh_witness :
    getClient
        [("U1", { slack_user_id := "U1", access_token := "at-old",
                  refresh_token := "rt-1", expiry_date := 500, scope := "s" })]
        "U1" 1000 { access_token := some "at-new", expiry_date := some 9000 } =
      { result := .ok (), refreshCalls := 1,
        store := [("U1", { slack_user_id := "U1", access_token := "at-new",
                           refresh_token := "rt-1", expiry_date := 9000, scope := "s" })] } := by
  have h := (google_token_refresh
      [("U1", { slack_user_id := "U1", access_token := "at-old",
                refresh_token := "rt-1", expiry_date := 500, scope := "s" })]
      "U1" 1000 { access_token := some "at-new", expiry_date := some 9000 }).1
      { slack_user_id := "U1", access_token := "at-old",
        refresh_token := "rt-1", expiry_date := 500, scope := "s" }
      (by decide)
  exact (h.1 (by decide) (by decide)).1

/-- Any single session event keeps the context id of an already-mapped
thread. -/
theorem sessionStep_preserves_context (m : ThreadMap) (e : SessionEvent)
    (t : String) (mp : ThreadMapping) (h : m.lookup t = some mp) :
    ∃ mp2, (sessionStep m e).lookup t = some mp2 ∧ mp2.contextId = mp.contextId := by
  cases e with
  | mention t2 c i a =>
    simp only [sessionStep, mentionThreadUpdate]
    by_cases ht : t2 = t
    · subst ht
      rw [h]
      exact ⟨_, lookup_setThread_self m t2 _, rfl⟩
    · cases hm : m.lookup t2 with
      | none => exact ⟨mp, by rw [lookup_setThread_ne m t t2 _ (Ne.symm ht)]; exact h, rfl⟩
      | some mp3 => exact ⟨mp, by rw [lookup_setThread_ne m t t2 _ (Ne.symm ht)]; exact h, rfl⟩
  | agentChat t2 c a =>
    simp only [sessionStep, agentChatEnsure]
    by_cases ht : t2 = t
    · subst ht
      rw [h]
      exact ⟨mp, h, rfl⟩
    · cases hm : m.lookup t2 with
      | none => exact ⟨mp, by rw [lookup_setThread_ne m t t2 _ (Ne.symm ht)]; exact h, rfl⟩
      | some mp3 => exact ⟨mp, h, rfl⟩

/-- Context-id preservation extends over any event sequence. -/
theorem sessionRun_preserves_context :
    ∀ (events : List SessionEvent) (m : ThreadMap) (t : String) (mp : ThreadMapping),
      m.lookup t = some mp →
      ∃ mp2, (sessionRun m events).lookup t = some mp2 ∧ mp2.contextId = mp.contextId := by
  intro events
  induction events with
  | nil => exact fun m t mp h => ⟨mp, h, rfl⟩
  | cons e rest ih =>
    intro m t mp h
    obtain ⟨mp2, h2, hc2⟩ := sessionStep_preserves_context m e t mp h
    obtain ⟨mp3, h3, hc3⟩ := ih (sessionStep m e) t mp2 h2
    exact ⟨mp3, h3, hc3.trans hc2⟩

/-- C3 counterexample: the claim says a follow-up mention whose classified
intent is not agent-chat leaves the stored agentKey unchanged; after a
first mention stores scrum-master, a follow-up mention classified
(create-task, product-owner) overwrites the stored agentKey with
product-owner even though create-task is not agent-chat. -/
theorem thread_agentkey_counterexample :
    (mentionThreadUpdate [] "T1" "ctx-1" "board-status" "scrum-master").lookup "T1" =
      some { contextId := "ctx-1", agentKey := "scrum-master", intent := some "board-status" }
    ∧ (mentionThreadUpdate
          (mentionThreadUpdate [] "T1" "ctx-1" "board-status" "scrum-master")
          "T1" "ctx-2" "create-task" "product-owner").lookup "T1" =
      some { contextId := "ctx-1", agentKey := "product-owner", intent := some "create-task" } := by
  constructor
  · rfl
  · rfl

/-- C3 amended: once a thread mapping exists, its contextId never changes
across any sequence of mention and agent-chat thread-map updates until
process exit; a follow-up mention on a mapped thread keeps the contextId
but overwrites the stored agentKey and intent with the newly classified
values, whatever the new intent is. -/
theorem thread_context_stability (m : ThreadMap) (events : List SessionEvent)
    (threadTs : String) (mapping : ThreadMapping)
    (h : m.lookup threadTs = some mapping) :
    (∃ mapping2, (sessionRun m events).lookup threadTs = some mapping2
        ∧ mapping2.contextId = mapping.contextId)
    ∧ (∀ freshContextId intent agentKey,
        (mentionThreadUpdate m threadTs freshContextId intent agentKey).lookup threadTs =
          some { contextId := mapping.contextId, agentKey := agentKey,
                 intent := some intent }) := by
  constructor
  · exact sessionRun_preserves_context events m threadTs mapping h
  · intro freshContextId intent agentKey
    simp only [mentionThreadUpdate, h]
    exact lookup_setThread_self m threadTs _

/-- C3 witness: on a thread already mapped to ctx-1, a follow-up mention
classified (create-task, product-owner) keeps contextId ctx-1 while
rewriting agentKey and intent. -/
theorem thread_context_stability_witness :
    (mentionThreadUpdate
        [("T1", { contextId := "ctx-1", agentKey := "scrum-master",
                  intent := some "board-status" })]
        "T1" "ctx-9" "create-task" "product-owner").lookup "T1" =
      some { contextId := "ctx-1", agentKey := "product-owner",
             intent := some "create-task" } :=
  (thread_context_stability
      [("T1", { contextId := "ctx-1", agentKey := "scrum-master",
                intent := some "board-status" })]
      [] "T1"
      { contextId := "ctx-1", agentKey := "scrum-master", intent := some "board-status" }
      rfl).2 "ctx-9" "create-task" "product-owner"

/-- Every hit of the Tier-1 pre-filter carries an intent from the closed
set. -/
theorem keywordPreFilter_intent_mem (text : String) (r : ClassificationResult)
    (h : keywordPreFilter text = some r) : r.intent ∈ INTENT_TYPES := by
  simp only [keywordPreFilter] at h
  obtain ⟨rule, hmem, hrule⟩ := List.exists_of_findSome?_eq_some h
  have hr : r = { intent := rule.intent, agentKey := rule.agentKey } := by
    by_cases hc : rule.keywords.any
        (fun kw => containsSubstr (toLowerCase text) kw) = true
    · rw [if_pos hc] at hrule
      exact (Option.some.inj hrule).symm
    · rw [if_neg hc] at hrule
      exact absurd hrule (Option.noConfusion)
  have hall : ∀ rule2 ∈ KEYWORD_RULES, rule2.intent ∈ INTENT_TYPES := by decide
  rw [hr]
  exact hall rule hmem

/-- The Tier-3 fallback classifier always answers inside the closed intent
set. -/
theorem classifyFallback_intent_mem (text : String) :
    (classifyFallback text).intent ∈ INTENT_TYPES := by
  simp only [classifyFallback]
  split_ifs <;> decide

/-- C5: for every message and every LLM behaviour — the call throwing, a
reply without a text block, garbage that JSON.parse rejects (fenced or
not), or a parsed object whose intent is outside the closed set — classify
returns an intent from the closed six-element set, the failure paths
falling through to the keyword fallback classifier. -/
theorem classifier_intent_closure (message : String) (reply : LLMReply) :
    (classify message reply).intent ∈ INTENT_TYPES := by
  unfold classify
  cases hk : keywordPreFilter message with
  | some r =>
      exact keywordPreFilter_intent_mem message r hk
  | none =>
    cases reply with
    | llmThrown msg => exact classifyFallback_intent_mem message
    | noTextBlock => exact classifyFallback_intent_mem message
    | unparseable raw => exact classifyFallback_intent_mem message
    | parsed parsedIntent parsedAgentKey =>
      show (match parsedIntent with
            | some i => if INTENT_TYPES.contains i then i else "agent-chat"
            | none => "agent-chat") ∈ INTENT_TYPES
      cases parsedIntent with
      | none => decide
      | some i =>
        show (if INTENT_TYPES.contains i then i else "agent-chat") ∈ INTENT_TYPES
        by_cases hi : INTENT_TYPES.contains i = true
        · rw [if_pos hi]
          exact List.mem_of_elem_eq_true hi
        · rw [if_neg hi]
          decide

/-- C6: whenever one of the Tier-1 keyword phrases occurs case-insensitively
in the text, the pre-filter fires and classify returns its (first-matching
rule) result for every possible LLM behaviour — no LLM call influences the
outcome; in particular the mention text about creating a task from the
conversation resolves to (create-task, product-owner). -/
theorem tier1_resolution (text : String)
    (h : ∃ rule, rule ∈ KEYWORD_RULES ∧ ∃ kw, kw ∈ rule.keywords ∧
         containsSubstr (toLowerCase text) kw = true) :
    (∃ res, keywordPreFilter text = some res ∧
        ∀ reply : LLMReply, classify text reply = res)
    ∧ (∀ reply : LLMReply,
        classify "create a task from this conversation" reply =
          { intent := "create-task", agentKey := "product-owner" }) := by
  constructor
  · obtain ⟨rule, hmem, kw, hkw, hc⟩ := h
    have hsome : (keywordPreFilter text).isSome = true := by
      simp only [keywordPreFilter]
      rw [List.findSome?_isSome_iff]
      refine ⟨rule, hmem, ?_⟩
      have hcond : rule.keywords.any (fun kw2 => containsSubstr (toLowerCase text) kw2) = true := by
        rw [List.any_eq_true]
        exact ⟨kw, hkw, hc⟩
      rw [if_pos hcond]
      rfl
    obtain ⟨res, hres⟩ := Option.isSome_iff_exists.mp hsome
    refine ⟨res, hres, fun reply => ?_⟩
    unfold classify
    rw [hres]
  · intro reply
    have hfix : keywordPreFilter "create a task from this conversation" =
        some { intent := "create-task", agentKey := "product-owner" } := by decide
    unfold classify
    rw [hfix]

/-- C6 witness: with the concrete mention text the pre-filter matches and
classify ignores the LLM behaviour entirely. -/
theorem tier1_resolution_witness :
    classify "create a task from this conversation" LLMReply.noTextBlock =
      { intent := "create-task", agentKey := "product-owner" } :=
  (tier1_resolution "create a task from this conversation" (by decide)).2
    LLMReply.noTextBlock

/-- C10: classify range-checks only the intent of a parsed LLM reply: when
the pre-filter does not fire, any non-empty agentKey string — also one
outside the closed agent-key set — is returned unchanged, while a missing
or empty (falsy) agentKey becomes product-owner. -/
theorem classifier_agentkey_passthrough (message candidate : String)
    (parsedIntent : Option String)
    (hfilter : keywordPreFilter message = none)
    (hne : candidate ≠ "")
    (hout : candidate ∉ ["product-owner", "developer", "reviewer", "scrum-master"]) :
    (classify message (.parsed parsedIntent (some candidate))).agentKey = candidate
    ∧ (classify message (.parsed parsedIntent none)).agentKey = "product-owner"
    ∧ (classify message (.parsed parsedIntent (some ""))).agentKey = "product-owner" := by
  refine ⟨?_, ?_, ?_⟩
  · unfold classify
    rw [hfilter]
    simp [hne]
  · unfold classify
    rw [hfilter]
  · unfold classify
    rw [hfilter]
    simp

/-- C10 witness: a parsed reply with agentKey banana — not an agent key at
all — is passed through verbatim. -/
theorem classifier_agentkey_passthrough_witness :
    (classify "hello" (.parsed (some "drive") (some "banana"))).agentKey = "banana" :=
  (classifier_agentkey_passthrough "hello" "banana" (some "drive")
    (by decide) (by decide) (by decide)).1

end MondayForAgents
